import Mathlib

/-!
# Verification of the bmcbutler connection-and-dispatch engine

A shallow embedding, in Lean 4, of the core components of the bmcbutler
repository:

* the chassis Configuration Apply Engine (`pkg/butler/configure/chassis.go`,
  `Cmc.Apply`),
* the Login Engine (`bmclogin`, `Params.Login` / `Params.attemptLogin`),
* the Discovery Prober's probe ordering (`discover.ScanAndConnect` /
  `swapProbe`),
* the dispatcher's per-message handler (`Butler.msgHandler`) and the
  post-login field update in `Butler.configureAsset`.

Go maps, channels and network calls are modelled as explicit data:
the outcomes of the vendor-library adapter calls are drawn from an
environment record, the racy interrupt flag becomes an explicit stream of
observed values, and metric counters become an accumulated list of counter
names.  Where noted, a ghost `trace` field records the attempts a loop
makes; it changes no control flow and exists only so theorems can speak
about which attempts happened and in which order.
-/

namespace Configure

/-! ## Configuration Apply Engine (`pkg/butler/configure/chassis.go`)

`cfgresources.ResourcesConfig` is external to the repository; the `Apply`
switch only ever tests each of its sections against `nil` and hands the
section to the corresponding `devices.Configure` adapter call, so each
section is modelled by a presence flag and each adapter call by its
returned error (drawn from `ConfigureEnv`). -/

/-- Presence (non-`nil`-ness) of each section of the
`cfgresources.ResourcesConfig` the chassis `Apply` switch inspects. -/
structure ResourcesConfig where
  user : Bool
  syslog : Bool
  ntp : Bool
  ldap : Bool
  ldapGroups : Bool
  license : Bool
  network : Bool
  deriving DecidableEq, Repr

/-- Outcome environment for the `devices.Configure` adapter calls made by
`Cmc.Apply`: the error value (`none` = `nil`) each call would return, plus
the error of the `LdapGroups.GetExtraGroups` lookup. -/
structure ConfigureEnv where
  userErr : Option String
  syslogErr : Option String
  ntpErr : Option String
  ldapErr : Option String
  ldapGroupsErr : Option String
  licenseErr : Option String
  networkErr : Option String
  getExtraGroupsErr : Option String
  deriving DecidableEq, Repr

/-- The value held by the *outer* `err` variable of `Cmc.Apply` after the
`switch resource` statement, for one resource name.

In the `"ldap_group"` arm the Go source reads

    o, err := b.config.LdapGroups.GetExtraGroups(...)
    if err != nil { ...log... }
    err = b.configure.LdapGroups(b.config.LdapGroups.Groups, b.config.Ldap)

`o, err :=` declares a *new* `err` in the inner block scope, and the
subsequent `err = b.configure.LdapGroups(...)` assigns that shadowed inner
variable; the outer `err` read by the success/failure classification is
never written in this arm, so it stays `nil`.  The two `let` bindings
below mirror those two shadowed assignments. -/
def applyStep (cfg : ResourcesConfig) (env : ConfigureEnv) (resource : String) :
    Option String :=
  if resource = "user" then (if cfg.user then env.userErr else none)
  else if resource = "syslog" then (if cfg.syslog then env.syslogErr else none)
  else if resource = "ntp" then (if cfg.ntp then env.ntpErr else none)
  else if resource = "ldap" then (if cfg.ldap then env.ldapErr else none)
  else if resource = "ldap_group" then
    (if cfg.ldapGroups ∧ cfg.ldap then
      let _innerErrFromLookup := env.getExtraGroupsErr
      let _innerErrFromApply := env.ldapGroupsErr
      none
    else none)
  else if resource = "license" then (if cfg.license then env.licenseErr else none)
  else if resource = "network" then (if cfg.network then env.networkErr else none)
  else none

/-- The two outcome lists `Cmc.Apply` accumulates. -/
structure ApplyOutcome where
  success : List String
  failed : List String
  deriving DecidableEq, Repr

/-- The `for _, resource := range resources` loop of `Cmc.Apply`.

The racy `interrupt` boolean (set asynchronously by the
`go func() { <-b.stopChan; interrupt = true }()` goroutine) is modelled by
the stream `intr` of values observed at the `if interrupt == true` check
preceding each iteration; the stream is shifted by one on recursion so
`intr 0` is always the value observed at the current check. -/
def applyLoop (cfg : ResourcesConfig) (env : ConfigureEnv) (intr : Nat → Bool) :
    List String → ApplyOutcome → ApplyOutcome
  | [], acc => acc
  | r :: rest, acc =>
    if intr 0 then acc
    else
      let err := applyStep cfg env r
      if err ≠ none then
        applyLoop cfg env (fun i => intr (i + 1)) rest
          { acc with failed := acc.failed ++ [r] }
      else
        applyLoop cfg env (fun i => intr (i + 1)) rest
          { acc with success := acc.success ++ [r] }

/-- The resource list `Cmc.Apply` iterates over: the caller-restricted
`b.resources` when non-empty, otherwise the device's own
`b.configure.Resources()` capability list. -/
def effectiveResources (bResources deviceResources : List String) : List String :=
  if bResources.length > 0 then bResources else deviceResources

/-- `Cmc.Apply`: selects the resource list, then runs the apply loop with
empty `success`/`failed` accumulators. -/
def Apply (cfg : ResourcesConfig) (env : ConfigureEnv) (intr : Nat → Bool)
    (bResources deviceResources : List String) : ApplyOutcome :=
  applyLoop cfg env intr (effectiveResources bResources deviceResources) ⟨[], []⟩

/-- The interrupt stream that is never observed set. -/
def noInterrupt : Nat → Bool := fun _ => false

/-- The interrupt stream first observed set at the check before the
`k`-th (0-based) resource. -/
def interruptAt (k : Nat) : Nat → Bool := fun i => decide (k ≤ i)

/-- Presence flag of the configuration section the named resource's switch
arm tests first (`ldap_group` tests `LdapGroups`; unknown names have no
section and are mapped to `false`). -/
def sectionPresent (cfg : ResourcesConfig) : String → Bool
  | "user" => cfg.user
  | "syslog" => cfg.syslog
  | "ntp" => cfg.ntp
  | "ldap" => cfg.ldap
  | "ldap_group" => cfg.ldapGroups
  | "license" => cfg.license
  | "network" => cfg.network
  | _ => false

/-- A configuration in which every section is `nil`. -/
def allNilConfig : ResourcesConfig :=
  ⟨false, false, false, false, false, false, false⟩

/-- A sample adapter environment in which every adapter call fails; with an
all-`nil` configuration none of these errors can be reached. -/
def allErrEnv : ConfigureEnv :=
  ⟨some "e", some "e", some "e", some "e", some "e", some "e", some "e", some "e"⟩

end Configure

namespace Bmclogin

/-! ## Login Engine (`bmclogin`, `Params.Login` / `Params.attemptLogin`)

The network is modelled by an environment mapping an
(IP, username, password) triple to what `discover.ScanAndConnect` plus the
subsequent type switch of `attemptLogin` would observe for it. -/

/-- What probing one (IP, username, password) triple yields:
`unreachable` (`ScanAndConnect` returned an error), a server BMC
(`devices.Bmc`) whose `CheckCredentials` succeeds iff `credOk`, a chassis
BMC (`devices.BmcChassis`) with its `CheckCredentials` and `IsActive`
answers, or a connection of a type matching neither interface. -/
inductive ProbeOutcome where
  | unreachable
  | bmc (credOk : Bool)
  | chassis (credOk : Bool) (active : Bool)
  | unknownDevice
  deriving DecidableEq, Repr

/-- The network environment: the probe outcome for each
(IP, username, password) triple. -/
def NetEnv : Type := String → String → String → ProbeOutcome

/-- The `(connection, ipInactive, err)` triple returned by
`Params.attemptLogin`; `connection` records whether a non-`nil` connection
was returned. -/
structure AttemptResult where
  connection : Bool
  ipInactive : Bool
  err : Option String
  deriving DecidableEq, Repr

/-- `Params.attemptLogin`: `ScanAndConnect`, then — when `CheckCredential`
is set — a credential check on the typed handle, and for a chassis an
`IsActive` check that marks the IP inactive (with a `nil` error) instead of
failing. -/
def attemptLogin (env : NetEnv) (checkCredential : Bool)
    (ip user pass : String) : AttemptResult :=
  match env ip user pass with
  | .unreachable => ⟨false, false, some "ScanAndConnect attempt unsuccessful."⟩
  | .bmc credOk =>
    if !checkCredential then ⟨true, false, none⟩
    else if credOk then ⟨true, false, none⟩
    else ⟨true, false, some ("BMC login attempt failed, account: " ++ user)⟩
  | .chassis credOk active =>
    if !checkCredential then ⟨true, false, none⟩
    else if credOk then
      (if active then ⟨true, false, none⟩ else ⟨true, true, none⟩)
    else ⟨true, false, some ("Chassis login attempt failed, account: " ++ user)⟩
  | .unknownDevice =>
    if !checkCredential then ⟨true, false, none⟩
    else ⟨true, false, some "Unrecognized device type."⟩

/-- `bmclogin.LoginInfo`.  A Go `map[string]string` credential is
represented by its (username, password) entries, so `WorkingCredentials`
becomes an optional pair and `FailedCredentials` a list of pairs.  The
`trace` field is a ghost observation recording, in order, the
`(user, pass, ip)` argument of every `attemptLogin` call made (it is
bumped exactly where `Attempts` is and affects no control flow). -/
structure LoginInfo where
  failedCredentials : List (String × String) := []
  workingCredentials : Option (String × String) := none
  activeIpAddress : String := ""
  attempts : Nat := 0
  trace : List (String × String × String) := []
  deriving DecidableEq, Repr

/-- Result of one layer of the nested login loops: either the enclosing
function returns `(connection, loginInfo, err)` now, or the loop layer
finished and iteration continues with the updated `loginInfo`. -/
inductive LoopResult where
  | ret (connection : Bool) (info : LoginInfo) (err : Option String)
  | cont (info : LoginInfo)
  deriving DecidableEq, Repr

/-- Early-return propagation: a `return` inside an inner loop returns from
`Login` itself, while a finished inner loop continues with the next outer
iteration. -/
def LoopResult.andThen (r : LoopResult) (k : LoginInfo → LoopResult) : LoopResult :=
  match r with
  | .ret c i e => .ret c i e
  | .cont i => k i

/-- The innermost `for t := 0; t <= p.Retries; t++` loop of `Params.Login`,
for one fixed credential entry and IP; `n` is the number of iterations left
(the loop body runs `Retries + 1` times).  `numIps` is `len(p.IpAddresses)`.

Each iteration bumps `Attempts`, calls `attemptLogin`, and then:
an inactive IP either returns at once (single-IP asset, working credential
recorded, the `nil` error of the attempt passed through) or breaks to the
next IP; a `nil` error returns with the active IP and working credential
recorded; otherwise the credential is appended to `FailedCredentials` and
the next retry runs. -/
def retryLoop (env : NetEnv) (checkCredential : Bool) (numIps : Nat)
    (user pass ip : String) : Nat → LoginInfo → LoopResult
  | 0, info => .cont info
  | n + 1, info =>
    let info := { info with
      attempts := info.attempts + 1
      trace := info.trace ++ [(user, pass, ip)] }
    let a := attemptLogin env checkCredential ip user pass
    if a.ipInactive then
      (if numIps = 1 then
        .ret a.connection
          { info with workingCredentials := some (user, pass) } a.err
      else .cont info)
    else if a.err = none then
      .ret a.connection
        { info with
          activeIpAddress := ip
          workingCredentials := some (user, pass) } none
    else
      retryLoop env checkCredential numIps user pass ip n
        { info with failedCredentials := info.failedCredentials ++ [(user, pass)] }

/-- The `for _, ip := range p.IpAddresses` loop: empty-string IPs are
skipped (`if ip == "" { continue }`); otherwise the retry loop runs with
`retries + 1` iterations. -/
def ipLoop (env : NetEnv) (checkCredential : Bool) (numIps retries : Nat)
    (user pass : String) : List String → LoginInfo → LoopResult
  | [], info => .cont info
  | ip :: rest, info =>
    if ip = "" then ipLoop env checkCredential numIps retries user pass rest info
    else
      (retryLoop env checkCredential numIps user pass ip (retries + 1) info).andThen
        fun info' => ipLoop env checkCredential numIps retries user pass rest info'

/-- The `for user, pass := range credentials` loop over the entries of one
credential map (iteration order of the Go map is fixed by the list order
chosen here). -/
def entryLoop (env : NetEnv) (checkCredential : Bool) (numIps retries : Nat)
    (ips : List String) : List (String × String) → LoginInfo → LoopResult
  | [], info => .cont info
  | (user, pass) :: rest, info =>
    (ipLoop env checkCredential numIps retries user pass ips info).andThen
      fun info' => entryLoop env checkCredential numIps retries ips rest info'

/-- The outer `for _, credentials := range p.Credentials` loop. -/
def credLoop (env : NetEnv) (checkCredential : Bool) (numIps retries : Nat)
    (ips : List String) : List (List (String × String)) → LoginInfo → LoopResult
  | [], info => .cont info
  | cred :: rest, info =>
    (entryLoop env checkCredential numIps retries ips cred info).andThen
      fun info' => credLoop env checkCredential numIps retries ips rest info'

/-- `bmclogin.Params` (each credential map given by its entry list). -/
structure Params where
  ipAddresses : List String
  credentials : List (List (String × String))
  checkCredential : Bool
  retries : Nat
  deriving DecidableEq, Repr

/-- The `(connection, loginInfo, err)` triple `Params.Login` returns. -/
structure LoginReturn where
  connection : Bool
  info : LoginInfo
  err : Option String
  deriving DecidableEq, Repr

/-- Converts the loop outcome into `Params.Login`'s return triple: a loop
`return` passes through, exhaustion yields the all-attempts-failed error
(with the `nil` interface connection). -/
def finishLogin : LoopResult → LoginReturn
  | .ret c i e => ⟨c, i, e⟩
  | .cont i => ⟨false, i, some "All attempts to login failed."⟩

/-- `Params.Login`: normalises `Retries` (`0` becomes `1`), runs the nested
credential → entry → IP → retry loops, and — when they all fall through —
returns the all-attempts-failed error. -/
def Login (env : NetEnv) (p : Params) : LoginReturn :=
  let retries := if p.retries = 0 then 1 else p.retries
  finishLogin (credLoop env p.checkCredential p.ipAddresses.length retries
    p.ipAddresses p.credentials {})

/-- An attempt is *returning* when its `attemptLogin` result makes the
retry loop return to the caller: either the full success path
(`ipInactive` false and a `nil` error) or the single-IP last-resort path
(`ipInactive` true on an asset whose IP list has length one). -/
def returning (env : NetEnv) (checkCredential : Bool) (numIps : Nat)
    (t : String × String × String) : Bool :=
  let a := attemptLogin env checkCredential t.2.2 t.1 t.2.1
  (a.ipInactive && decide (numIps = 1)) || (!a.ipInactive && decide (a.err = none))

end Bmclogin

namespace Discover

/-! ## Discovery Prober (`discover.ScanAndConnect` / `swapProbe`) -/

/-- The probe catalog's default try-order (the `order` slice of
`ScanAndConnect`). -/
def defaultOrder : List String :=
  ["hpilo", "idrac8", "idrac9", "supermicrox11", "supermicrox",
   "hpc7000", "m1000e", "quanta", "hpcl100"]

/-- `swapProbe(order, hint)`: find the first index holding `hint` and swap
it with index `0` (`order[0], order[i] = order[i], order[0]`), then break;
no occurrence leaves the order unchanged. -/
def swapProbe (order : List String) (hint : String) : List String :=
  match order.findIdx? (· = hint) with
  | none => order
  | some i => (order.set 0 (order.getD i "")).set i (order.getD 0 "")

/-- What one probe function call yields: `err` is the probe's returned
error and `conn` records whether the returned connection is non-`nil`. -/
structure ProbeRes where
  conn : Bool
  err : Option String
  deriving DecidableEq, Repr

/-- Result of `ScanAndConnect`'s probing loop. -/
inductive ScanResult where
  /-- a probe returned a non-`nil` connection and no error -/
  | connected (probeID : String)
  /-- the hint callback returned an error after a successful probe
  (the handle is not returned to the caller) -/
  | hintCallbackError (e : String)
  /-- no probe succeeded: `errors.ErrVendorUnknown` -/
  | vendorUnknown
  deriving DecidableEq, Repr

/-- The `for _, probeID := range order` loop of `ScanAndConnect`:
a probe error logs and continues; on a `nil` error the hint callback runs
(a callback error aborts the whole call); a non-`nil` connection is
returned, a `nil` one falls through to the next probe.  The first
component is a ghost trace of the probe IDs tried, in order. -/
def probeLoop (env : String → ProbeRes) (cb : String → Option String) :
    List String → List String × ScanResult
  | [] => ([], .vendorUnknown)
  | id :: rest =>
    let r := env id
    match r.err with
    | some _ =>
      let (tr, res) := probeLoop env cb rest
      (id :: tr, res)
    | none =>
      match cb id with
      | some e => ([id], .hintCallbackError e)
      | none =>
        if r.conn then ([id], .connected id)
        else
          let (tr, res) := probeLoop env cb rest
          (id :: tr, res)

/-- The try-order `ScanAndConnect` probes: the default order with
`swapProbe` applied when a non-empty hint was supplied
(`if opts.Hint != "" { swapProbe(order, opts.Hint) }`). -/
def scanOrder (order : List String) (hint : String) : List String :=
  if hint ≠ "" then swapProbe order hint else order

/-- `ScanAndConnect` (the probing part, for a given catalog order): apply
the hint reordering, then run the probe loop. -/
def ScanAndConnect (env : String → ProbeRes) (cb : String → Option String)
    (hint : String) : List String × ScanResult :=
  probeLoop env cb (scanOrder defaultOrder hint)

end Discover

namespace Butler

/-! ## Dispatcher (`Butler.msgHandler`, `Butler.myLocation`,
`Butler.configureAsset`) -/

/-- `asset.Asset` (`pkg/asset/asset.go`); the `Extra` map becomes an
association list. -/
structure Asset where
  ipAddresses : List String := []
  ipAddress : String := ""
  serial : String := ""
  vendor : String := ""
  hardwareType : String := ""
  type : String := ""
  location : String := ""
  setup : Bool := false
  configure : Bool := false
  execute : Bool := false
  extra : List (String × String) := []
  deriving DecidableEq, Repr

/-- `butler.Msg`: the asset plus its configuration/setup/execute payloads. -/
structure Msg where
  asset : Asset
  assetConfig : List String := []
  assetSetup : List String := []
  assetExecute : String := ""
  deriving DecidableEq, Repr

/-- The butler state `msgHandler` reads: the process-wide interrupt flag
and the configuration fields it consults. -/
structure ButlerState where
  interrupt : Bool
  locations : List String
  ignoreLocation : Bool
  deriving DecidableEq, Repr

/-- Outcomes of the two actions a handled message can trigger, modelling
the errors `b.executeCommand` and `b.configureAsset` would return. -/
structure ActionEnv where
  executeErr : Option String
  configureErr : Option String
  deriving DecidableEq, Repr

/-- `Butler.myLocation`: linear scan of `b.Config.Locations` for an exact
match. -/
def myLocation (locations : List String) (location : String) : Bool :=
  match locations with
  | [] => false
  | l :: rest => if l = location then true else myLocation rest location

/-- The return point through which one `msgHandler` call exited. -/
inductive HandlerExit where
  | interrupted
  | noIP
  | locationUnmanaged
  | executeFail
  | executeSuccess
  | configureFail
  | configureSuccess
  | unknownAction
  deriving DecidableEq, Repr

/-- Observable effects of one `msgHandler` call: the metric counters
incremented (in order, by name suffix) and the exit point. -/
structure HandlerResult where
  counters : List String
  exit : HandlerExit
  deriving DecidableEq, Repr

/-- The `switch` at the end of `msgHandler`, checked in priority order
`Execute`, then `Configure`, else the unknown-action warning. -/
def msgHandlerAction (aenv : ActionEnv) (msg : Msg) (counters : List String) :
    HandlerResult :=
  if msg.asset.execute then
    match aenv.executeErr with
    | some _ => ⟨counters ++ ["execute_fail"], .executeFail⟩
    | none => ⟨counters ++ ["execute_success"], .executeSuccess⟩
  else if msg.asset.configure then
    match aenv.configureErr with
    | some _ => ⟨counters ++ ["configure_fail"], .configureFail⟩
    | none => ⟨counters ++ ["configure_success"], .configureSuccess⟩
  else ⟨counters, .unknownAction⟩

/-- `Butler.msgHandler`: the interrupt short-circuit, the `asset_recvd`
counter, the unusable-IP rejection (empty list, or a single literal
`"0.0.0.0"`), the location filter (`Location != ""` and not in the
allow-list and `IgnoreLocation` unset), then the action switch. -/
def msgHandler (b : ButlerState) (aenv : ActionEnv) (msg : Msg) : HandlerResult :=
  if b.interrupt then ⟨[], .interrupted⟩
  else
    let counters := ["asset_recvd"]
    if msg.asset.ipAddresses.length = 0 ∨
        (msg.asset.ipAddresses.length = 1 ∧
          msg.asset.ipAddresses.headD "" = "0.0.0.0") then
      ⟨counters ++ ["asset_recvd_noip"], .noIP⟩
    else if msg.asset.location ≠ "" ∧
        !myLocation b.locations msg.asset.location ∧ !b.ignoreLocation then
      ⟨counters ++ ["asset_recvd_location_unmanaged"], .locationUnmanaged⟩
    else msgHandlerAction aenv msg counters

/-- The statement `asset.IPAddress = loginInfo.ActiveIpAddress` that
`Butler.configureAsset` executes right after a successful
`bmcConn.Login()` (on a login error it returns first and the field is left
untouched). -/
def configureAssetAfterLogin (a : Asset) (r : Bmclogin.LoginReturn) : Asset :=
  match r.err with
  | some _ => a
  | none => { a with ipAddress := r.info.activeIpAddress }

end Butler

/-! # Theorems -/

namespace Configure

/-! ## Lemmas about the apply loop -/

/-- With no interrupt observed, the apply loop classifies every listed
resource by the outcome of its switch arm: `nil`-error resources are
appended to `success`, the rest to `failed`, in list order. -/
theorem applyLoop_noInterrupt (cfg : ResourcesConfig) (env : ConfigureEnv)
    (rs : List String) (acc : ApplyOutcome) :
    applyLoop cfg env noInterrupt rs acc =
      ⟨acc.success ++ rs.filter (fun r => (applyStep cfg env r).isNone),
       acc.failed ++ rs.filter (fun r => (applyStep cfg env r).isSome)⟩ := by
  induction rs generalizing acc with
  | nil => simp [applyLoop]
  | cons r rest ih =>
    rw [applyLoop]
    rw [show noInterrupt 0 = false from rfl]
    have hshift : (fun i => noInterrupt (i + 1)) = noInterrupt := rfl
    by_cases hstep : applyStep cfg env r = none
    · simp only [Bool.false_eq_true, if_false, hstep, ne_eq,
        not_true_eq_false, ite_false]
      rw [hshift, ih]
      simp [List.filter_cons, hstep]
    · simp only [Bool.false_eq_true, if_false, ne_eq, hstep,
        not_false_eq_true, ite_true]
      rw [hshift, ih]
      simp [List.filter_cons, hstep, Option.isSome_iff_ne_none]

/-- If the interrupt stream is first observed set at check `k`, the apply
loop behaves exactly like an uninterrupted run over the first `k`
resources. -/
theorem applyLoop_interrupt_take (cfg : ResourcesConfig) (env : ConfigureEnv)
    (intr : Nat → Bool) (k : Nat) (rs : List String) (acc : ApplyOutcome)
    (h1 : ∀ j, j < k → intr j = false) (h2 : intr k = true) :
    applyLoop cfg env intr rs acc =
      applyLoop cfg env noInterrupt (rs.take k) acc := by
  induction rs generalizing k acc intr with
  | nil => simp [applyLoop]
  | cons r rest ih =>
    cases k with
    | zero =>
      rw [List.take_zero, applyLoop, applyLoop, h2]
      simp
    | succ k' =>
      have h0 : intr 0 = false := h1 0 (Nat.succ_pos _)
      rw [List.take_succ_cons, applyLoop, applyLoop, h0]
      simp only [Bool.false_eq_true, if_false, noInterrupt]
      have hshift1 : ∀ j, j < k' → intr (j + 1) = false := fun j hj =>
        h1 (j + 1) (Nat.succ_lt_succ hj)
      have hshift2 : intr (k' + 1) = true := h2
      by_cases hstep : applyStep cfg env r = none
      · simp only [hstep, ne_eq, not_true_eq_false, ite_false]
        exact ih _ _ _ hshift1 hshift2
      · simp only [ne_eq, hstep, not_false_eq_true, ite_true]
        exact ih _ _ _ hshift1 hshift2

/-- A resource whose tested configuration section is absent makes its
switch arm leave `err` at `nil`. -/
theorem applyStep_of_section_absent (cfg : ResourcesConfig) (env : ConfigureEnv)
    (r : String) (h : sectionPresent cfg r = false) :
    applyStep cfg env r = none := by
  by_cases h1 : r = "user"
  · subst h1; simp only [sectionPresent] at h; simp [applyStep, h]
  by_cases h2 : r = "syslog"
  · subst h2; simp only [sectionPresent] at h; simp [applyStep, h]
  by_cases h3 : r = "ntp"
  · subst h3; simp only [sectionPresent] at h; simp [applyStep, h]
  by_cases h4 : r = "ldap"
  · subst h4; simp only [sectionPresent] at h; simp [applyStep, h]
  by_cases h5 : r = "ldap_group"
  · subst h5; simp [applyStep]
  by_cases h6 : r = "license"
  · subst h6; simp only [sectionPresent] at h; simp [applyStep, h]
  by_cases h7 : r = "network"
  · subst h7; simp only [sectionPresent] at h; simp [applyStep, h]
  simp [applyStep, h1, h2, h3, h4, h5, h6, h7]

/-- With the all-`nil` configuration every switch arm leaves `err` at
`nil`. -/
theorem applyStep_allNil (env : ConfigureEnv) (r : String) :
    applyStep allNilConfig env r = none := by
  simp [applyStep, allNilConfig]

/-! ## Claim C1 -/

/-- C1, counterexample.  The claim states that a resource whose
configuration section is `nil` is recorded in *neither* outcome list and
that an all-`nil` configuration yields two *empty* lists.  On the code, a
`nil` section leaves `err` at `nil`, so the classification appends the
resource to the *success* list: applying `["user"]` under the all-`nil`
configuration produces `success = ["user"]`, not `[]`. -/
theorem apply_nil_section_in_success_counterexample :
    allNilConfig.user = false ∧
    Apply allNilConfig allErrEnv noInterrupt ["user"] [] =
      ⟨["user"], []⟩ ∧
    "user" ∈ (Apply allNilConfig allErrEnv noInterrupt ["user"] []).success := by
  refine ⟨rfl, rfl, ?_⟩
  show "user" ∈ ["user"]
  simp

/-- C1, amended.  A resource whose configuration section is absent is never
recorded as failed, but every occurrence of it in the apply list is
recorded as *succeeded* (the skipped apply is classified as success); in
particular, with an all-`nil` configuration the succeeded list equals the
whole effective apply list and the failed list is empty. -/
theorem apply_nil_section_amended (cfg : ResourcesConfig) (env : ConfigureEnv)
    (bResources deviceResources : List String) :
    (∀ r, sectionPresent cfg r = false →
      r ∉ (Apply cfg env noInterrupt bResources deviceResources).failed ∧
      (r ∈ effectiveResources bResources deviceResources →
        r ∈ (Apply cfg env noInterrupt bResources deviceResources).success)) ∧
    (cfg = allNilConfig →
      (Apply cfg env noInterrupt bResources deviceResources).success =
        effectiveResources bResources deviceResources ∧
      (Apply cfg env noInterrupt bResources deviceResources).failed = []) := by
  rw [Apply, applyLoop_noInterrupt]
  constructor
  · intro r hr
    constructor
    · intro hmem
      simp only [List.nil_append] at hmem
      have := (List.mem_filter.mp hmem).2
      rw [applyStep_of_section_absent cfg env r hr] at this
      simp at this
    · intro hmem
      simp only [List.nil_append]
      exact List.mem_filter.mpr
        ⟨hmem, by rw [applyStep_of_section_absent cfg env r hr]; rfl⟩
  · intro hcfg
    subst hcfg
    constructor
    · simp only [List.nil_append]
      exact List.filter_eq_self.mpr fun r _ => by
        rw [applyStep_allNil env r]; rfl
    · simp only [List.nil_append]
      rw [List.filter_eq_nil_iff]
      intro r _
      rw [applyStep_allNil env r]
      simp

/-- Witness for `apply_nil_section_amended`, at the all-`nil`
configuration with apply list `["user", "ntp"]`. -/
theorem apply_nil_section_amended_witness :
    ("user" ∉ (Apply allNilConfig allErrEnv noInterrupt ["user", "ntp"] []).failed ∧
      ("user" ∈ effectiveResources ["user", "ntp"] [] →
        "user" ∈ (Apply allNilConfig allErrEnv noInterrupt ["user", "ntp"] []).success)) ∧
    ((Apply allNilConfig allErrEnv noInterrupt ["user", "ntp"] []).success =
        effectiveResources ["user", "ntp"] [] ∧
      (Apply allNilConfig allErrEnv noInterrupt ["user", "ntp"] []).failed = []) :=
  ⟨(apply_nil_section_amended allNilConfig allErrEnv ["user", "ntp"] []).1
      "user" rfl,
   (apply_nil_section_amended allNilConfig allErrEnv ["user", "ntp"] []).2 rfl⟩

/-! ## Claim C6 -/

/-- C6.  With both `ldap_group` and `ldap` sections present and the
`LdapGroups` apply call returning an error, the code still records
`ldap_group` as succeeded: the `o, err := GetExtraGroups(...)` short
declaration shadows the outer `err`, so the subsequent
`err = b.configure.LdapGroups(...)` writes the inner variable and the
classification reads an untouched `nil`.  The claim (apply error ⇒
failed) is the clear intent — every sibling switch arm feeds its apply
error into the classification — and the shadowing is a slip, so this is a
code bug, not a spec error. -/
theorem ldap_group_apply_error_recorded_as_success :
    Apply ⟨false, false, false, true, true, false, false⟩
      ⟨none, none, none, none, some "LdapGroups apply failed", none, none, none⟩
      noInterrupt ["ldap_group"] [] = ⟨["ldap_group"], []⟩ := rfl

/-! ## Claim C7 -/

/-- C7.  If the interrupt flag is first observed set at the check
preceding the `(k+1)`-st resource (0-indexed `k`: `intr j = false` for
`j < k` and `intr k = true`), `Apply` produces exactly the outcome of an
uninterrupted run over the first `k` resources of the effective apply
list: the first `k` resources keep the classification already determined
for them, and every name in either outcome list comes from those first
`k` resources, so the remaining resources appear in neither list. -/
theorem apply_interrupt_prefix (cfg : ResourcesConfig) (env : ConfigureEnv)
    (intr : Nat → Bool) (bResources deviceResources : List String) (k : Nat)
    (h1 : ∀ j, j < k → intr j = false) (h2 : intr k = true) :
    Apply cfg env intr bResources deviceResources =
      applyLoop cfg env noInterrupt
        ((effectiveResources bResources deviceResources).take k) ⟨[], []⟩ ∧
    (∀ r,
      r ∈ (Apply cfg env intr bResources deviceResources).success ∨
        r ∈ (Apply cfg env intr bResources deviceResources).failed →
      r ∈ (effectiveResources bResources deviceResources).take k) := by
  have heq : Apply cfg env intr bResources deviceResources =
      applyLoop cfg env noInterrupt
        ((effectiveResources bResources deviceResources).take k) ⟨[], []⟩ :=
    applyLoop_interrupt_take cfg env intr k _ _ h1 h2
  refine ⟨heq, ?_⟩
  intro r hr
  rw [heq, applyLoop_noInterrupt] at hr
  simp only [List.nil_append] at hr
  rcases hr with hr | hr
  · exact List.mem_of_mem_filter hr
  · exact List.mem_of_mem_filter hr

/-- Witness for `apply_interrupt_prefix`: the stream first observed set at
check 1 cuts the run after the first of two resources. -/
theorem apply_interrupt_prefix_witness :
    Apply allNilConfig allErrEnv (interruptAt 1) ["user", "syslog"] [] =
      applyLoop allNilConfig allErrEnv noInterrupt
        ((effectiveResources ["user", "syslog"] []).take 1) ⟨[], []⟩ ∧
    (∀ r,
      r ∈ (Apply allNilConfig allErrEnv (interruptAt 1) ["user", "syslog"] []).success ∨
        r ∈ (Apply allNilConfig allErrEnv (interruptAt 1) ["user", "syslog"] []).failed →
      r ∈ (effectiveResources ["user", "syslog"] []).take 1) :=
  apply_interrupt_prefix allNilConfig allErrEnv (interruptAt 1)
    ["user", "syslog"] [] 1
    (fun j hj => by
      have hj0 : j = 0 := Nat.lt_one_iff.mp hj
      subst hj0
      rfl)
    rfl


end Configure

namespace Bmclogin

/-! ## Basic facts about `attemptLogin` and the loop combinator -/

@[simp]
theorem LoopResult.andThen_ret (c : Bool) (i : LoginInfo) (e : Option String)
    (k : LoginInfo → LoopResult) :
    (LoopResult.ret c i e).andThen k = .ret c i e := rfl

@[simp]
theorem LoopResult.andThen_cont (i : LoginInfo) (k : LoginInfo → LoopResult) :
    (LoopResult.cont i).andThen k = k i := rfl

@[simp]
theorem finishLogin_ret (c : Bool) (i : LoginInfo) (e : Option String) :
    finishLogin (.ret c i e) = ⟨c, i, e⟩ := rfl

@[simp]
theorem finishLogin_cont (i : LoginInfo) :
    finishLogin (.cont i) = ⟨false, i, some "All attempts to login failed."⟩ := rfl

/-- An attempt that reports its IP inactive carries a `nil` error: only the
chassis `IsActive` branch of `attemptLogin` sets `ipInactive`, and it
returns `nil`. -/
theorem attemptLogin_ipInactive_err (env : NetEnv) (cc : Bool) (ip u p : String)
    (h : (attemptLogin env cc ip u p).ipInactive = true) :
    (attemptLogin env cc ip u p).err = none := by
  cases henv : env ip u p
  all_goals simp [attemptLogin, henv] at h ⊢
  all_goals split_ifs at h ⊢
  all_goals simp_all

/-! ## Claim C4 -/

/-- C4.  For a chassis asset with two (non-empty) IPs where only the second
IP's controller is active and the credential is valid on both, `Login`
succeeds with `ActiveIpAddress` equal to the second IP, and the first IP's
inactive response is not appended to the failed-credentials list (the
`ipInactive` branch breaks to the next IP without recording a failure). -/
theorem login_two_ip_second_active (env : NetEnv) (u p ip1 ip2 : String) (r : Nat)
    (h1 : ip1 ≠ "") (h2 : ip2 ≠ "")
    (e1 : env ip1 u p = .chassis true false)
    (e2 : env ip2 u p = .chassis true true) :
    (Login env ⟨[ip1, ip2], [[(u, p)]], true, r⟩).err = none ∧
    (Login env ⟨[ip1, ip2], [[(u, p)]], true, r⟩).info.activeIpAddress = ip2 ∧
    (Login env ⟨[ip1, ip2], [[(u, p)]], true, r⟩).info.failedCredentials = [] ∧
    (Login env ⟨[ip1, ip2], [[(u, p)]], true, r⟩).connection = true := by
  simp [Login, credLoop, entryLoop, ipLoop, retryLoop, attemptLogin,
    e1, e2, h1, h2]

/-! ## Claim C5 -/

/-- C5.  For a chassis asset with exactly one (non-empty) IP whose
credential check succeeds but whose controller reports itself inactive,
`Login` accepts as a last resort: it returns the connection with a `nil`
error and the credential recorded as working. -/
theorem login_single_ip_inactive_accepted (env : NetEnv) (u p ip : String) (r : Nat)
    (h : ip ≠ "") (e : env ip u p = .chassis true false) :
    (Login env ⟨[ip], [[(u, p)]], true, r⟩).err = none ∧
    (Login env ⟨[ip], [[(u, p)]], true, r⟩).connection = true ∧
    (Login env ⟨[ip], [[(u, p)]], true, r⟩).info.workingCredentials = some (u, p) := by
  simp [Login, credLoop, entryLoop, ipLoop, retryLoop, attemptLogin, e, h]

/-! ## Loop invariants for `Login`'s attempt matrix -/

/-- Retry-loop invariant, fall-through case: the loop only adds
non-returning attempts at its own `(u, p, ip)` triple to the trace, makes
at least one attempt when it has at least one iteration, and leaves the
working-credential and active-IP fields untouched. -/
theorem retryLoop_cont (env : NetEnv) (cc : Bool) (numIps : Nat) (u p ip : String)
    (n : Nat) (info info' : LoginInfo)
    (h : retryLoop env cc numIps u p ip n info = .cont info') :
    info'.workingCredentials = info.workingCredentials ∧
    info'.activeIpAddress = info.activeIpAddress ∧
    ∃ Δ, info'.trace = info.trace ++ Δ ∧
      (∀ x ∈ Δ, returning env cc numIps x = false) ∧
      (n ≠ 0 → (u, p, ip) ∈ Δ) := by
  induction n generalizing info with
  | zero =>
    simp only [retryLoop, LoopResult.cont.injEq] at h
    subst h
    exact ⟨rfl, rfl, [], by simp, by simp, by simp⟩
  | succ m ih =>
    simp only [retryLoop] at h
    by_cases hIn : (attemptLogin env cc ip u p).ipInactive = true
    · rw [if_pos hIn] at h
      by_cases hOne : numIps = 1
      · rw [if_pos hOne] at h
        simp at h
      · rw [if_neg hOne] at h
        simp only [LoopResult.cont.injEq] at h
        subst h
        refine ⟨rfl, rfl, [(u, p, ip)], by simp, ?_, by simp⟩
        intro x hx
        simp only [List.mem_singleton] at hx
        subst hx
        simp [returning, hIn, hOne]
    · rw [if_neg hIn] at h
      by_cases hErr : (attemptLogin env cc ip u p).err = none
      · rw [if_pos hErr] at h
        simp at h
      · rw [if_neg hErr] at h
        obtain ⟨hw, ha, Δ', htr, hnr, hne⟩ := ih _ h
        refine ⟨by simpa using hw, by simpa using ha,
          (u, p, ip) :: Δ', ?_, ?_, by simp⟩
        · rw [htr]; simp
        · intro x hx
          rcases List.mem_cons.mp hx with hx | hx
          · subst hx
            simp only [Bool.not_eq_true] at hIn
            simp [returning, hIn, hErr]
          · exact hnr x hx

/-- Retry-loop invariant, early-return case: the returned error is `nil`,
the trace ends with a returning attempt at `(u, p, ip)` preceded only by
non-returning ones, the returning credential is recorded as working, and —
unless the return was the inactive last-resort — the active IP is
recorded. -/
theorem retryLoop_ret (env : NetEnv) (cc : Bool) (numIps : Nat) (u p ip : String)
    (n : Nat) (info : LoginInfo) (c : Bool) (i : LoginInfo) (e : Option String)
    (h : retryLoop env cc numIps u p ip n info = .ret c i e) :
    e = none ∧
    returning env cc numIps (u, p, ip) = true ∧
    i.workingCredentials = some (u, p) ∧
    ((attemptLogin env cc ip u p).ipInactive = false → i.activeIpAddress = ip) ∧
    ∃ Δ, i.trace = info.trace ++ Δ ++ [(u, p, ip)] ∧
      (∀ x ∈ Δ, returning env cc numIps x = false) := by
  induction n generalizing info with
  | zero => simp [retryLoop] at h
  | succ m ih =>
    simp only [retryLoop] at h
    by_cases hIn : (attemptLogin env cc ip u p).ipInactive = true
    · rw [if_pos hIn] at h
      by_cases hOne : numIps = 1
      · rw [if_pos hOne] at h
        simp only [LoopResult.ret.injEq] at h
        obtain ⟨hc, hi, he⟩ := h
        subst hi
        refine ⟨by rw [← he]; exact attemptLogin_ipInactive_err env cc ip u p hIn,
          by simp [returning, hIn, hOne], rfl, ?_, [], by simp, by simp⟩
        intro hfalse
        rw [hIn] at hfalse
        exact absurd hfalse (by simp)
      · rw [if_neg hOne] at h
        simp at h
    · rw [if_neg hIn] at h
      by_cases hErr : (attemptLogin env cc ip u p).err = none
      · rw [if_pos hErr] at h
        simp only [LoopResult.ret.injEq] at h
        obtain ⟨hc, hi, he⟩ := h
        subst hi
        simp only [Bool.not_eq_true] at hIn
        exact ⟨he.symm, by simp [returning, hIn, hErr], rfl, fun _ => rfl,
          [], by simp, by simp⟩
      · rw [if_neg hErr] at h
        obtain ⟨he, hret, hw, hact, Δ', htr, hnr⟩ := ih _ h
        refine ⟨he, hret, hw, hact, (u, p, ip) :: Δ', ?_, ?_⟩
        · rw [htr]; simp
        · intro x hx
          rcases List.mem_cons.mp hx with hx | hx
          · subst hx
            simp only [Bool.not_eq_true] at hIn
            simp [returning, hIn, hErr]
          · exact hnr x hx

/-- IP-loop invariant, fall-through case: the loop adds only non-returning
attempts, covering every non-empty IP of its list at least once, and
leaves the working-credential and active-IP fields untouched. -/
theorem ipLoop_cont (env : NetEnv) (cc : Bool) (numIps retries : Nat)
    (u p : String) (ips : List String) (info info' : LoginInfo)
    (h : ipLoop env cc numIps retries u p ips info = .cont info') :
    info'.workingCredentials = info.workingCredentials ∧
    info'.activeIpAddress = info.activeIpAddress ∧
    ∃ Δ, info'.trace = info.trace ++ Δ ∧
      (∀ x ∈ Δ, returning env cc numIps x = false) ∧
      (∀ ip' ∈ ips, ip' ≠ "" → (u, p, ip') ∈ Δ) := by
  induction ips generalizing info with
  | nil =>
    simp only [ipLoop, LoopResult.cont.injEq] at h
    subst h
    exact ⟨rfl, rfl, [], by simp, by simp, by simp⟩
  | cons ip rest ih =>
    rw [ipLoop] at h
    by_cases hip : ip = ""
    · rw [if_pos hip] at h
      obtain ⟨hw, ha, Δ, htr, hnr, hcov⟩ := ih _ h
      refine ⟨hw, ha, Δ, htr, hnr, ?_⟩
      intro ip' hip' hne
      rcases List.mem_cons.mp hip' with hip' | hip'
      · exact absurd (hip'.trans hip) hne
      · exact hcov ip' hip' hne
    · rw [if_neg hip] at h
      cases hr : retryLoop env cc numIps u p ip (retries + 1) info with
      | ret c i e =>
        rw [hr, LoopResult.andThen_ret] at h
        simp at h
      | cont info1 =>
        rw [hr, LoopResult.andThen_cont] at h
        obtain ⟨hw1, ha1, Δ1, htr1, hnr1, hmem1⟩ :=
          retryLoop_cont env cc numIps u p ip (retries + 1) info info1 hr
        obtain ⟨hw2, ha2, Δ2, htr2, hnr2, hcov2⟩ := ih _ h
        refine ⟨hw2.trans hw1, ha2.trans ha1, Δ1 ++ Δ2, ?_, ?_, ?_⟩
        · rw [htr2, htr1, List.append_assoc]
        · intro x hx
          rcases List.mem_append.mp hx with hx | hx
          · exact hnr1 x hx
          · exact hnr2 x hx
        · intro ip' hip' hne
          rcases List.mem_cons.mp hip' with hip' | hip'
          · subst hip'
            exact List.mem_append.mpr (Or.inl (hmem1 (by simp)))
          · exact List.mem_append.mpr (Or.inr (hcov2 ip' hip' hne))

/-- IP-loop invariant, early-return case: the returned error is `nil` and
the trace ends with the first returning attempt, whose credential is
recorded as working and whose IP is recorded as active unless the return
was the inactive last-resort. -/
theorem ipLoop_ret (env : NetEnv) (cc : Bool) (numIps retries : Nat)
    (u p : String) (ips : List String) (info : LoginInfo)
    (c : Bool) (i : LoginInfo) (e : Option String)
    (h : ipLoop env cc numIps retries u p ips info = .ret c i e) :
    e = none ∧
    ∃ Δ t, i.trace = info.trace ++ Δ ++ [t] ∧
      (∀ x ∈ Δ, returning env cc numIps x = false) ∧
      returning env cc numIps t = true ∧
      i.workingCredentials = some (t.1, t.2.1) ∧
      ((attemptLogin env cc t.2.2 t.1 t.2.1).ipInactive = false →
        i.activeIpAddress = t.2.2) := by
  induction ips generalizing info with
  | nil => simp [ipLoop] at h
  | cons ip rest ih =>
    rw [ipLoop] at h
    by_cases hip : ip = ""
    · rw [if_pos hip] at h
      exact ih _ h
    · rw [if_neg hip] at h
      cases hr : retryLoop env cc numIps u p ip (retries + 1) info with
      | ret c' i' e' =>
        rw [hr, LoopResult.andThen_ret] at h
        rw [h] at hr
        obtain ⟨he', hret, hw, hact, Δ, htr, hnr⟩ :=
          retryLoop_ret env cc numIps u p ip (retries + 1) info c i e hr
        exact ⟨he', Δ, (u, p, ip), htr, hnr, hret, hw, hact⟩
      | cont info1 =>
        rw [hr, LoopResult.andThen_cont] at h
        obtain ⟨hw1, ha1, Δ1, htr1, hnr1, hmem1⟩ :=
          retryLoop_cont env cc numIps u p ip (retries + 1) info info1 hr
        obtain ⟨he, Δ2, t, htr2, hnr2, hret2, hw2, hact2⟩ := ih _ h
        refine ⟨he, Δ1 ++ Δ2, t, ?_, ?_, hret2, hw2, hact2⟩
        · rw [htr2, htr1]
          simp [List.append_assoc]
        · intro x hx
          rcases List.mem_append.mp hx with hx | hx
          · exact hnr1 x hx
          · exact hnr2 x hx

/-- Entry-loop invariant (over the username/password entries of one
credential map), fall-through case. -/
theorem entryLoop_cont (env : NetEnv) (cc : Bool) (numIps retries : Nat)
    (ips : List String) (entries : List (String × String)) (info info' : LoginInfo)
    (h : entryLoop env cc numIps retries ips entries info = .cont info') :
    info'.workingCredentials = info.workingCredentials ∧
    info'.activeIpAddress = info.activeIpAddress ∧
    ∃ Δ, info'.trace = info.trace ++ Δ ∧
      (∀ x ∈ Δ, returning env cc numIps x = false) ∧
      (∀ ep ∈ entries, ∀ ip' ∈ ips, ip' ≠ "" → (ep.1, ep.2, ip') ∈ Δ) := by
  induction entries generalizing info with
  | nil =>
    simp only [entryLoop, LoopResult.cont.injEq] at h
    subst h
    exact ⟨rfl, rfl, [], by simp, by simp, by simp⟩
  | cons ep rest ih =>
    obtain ⟨eu, epw⟩ := ep
    rw [entryLoop] at h
    cases hr : ipLoop env cc numIps retries eu epw ips info with
    | ret c i e =>
      rw [hr, LoopResult.andThen_ret] at h
      simp at h
    | cont info1 =>
      rw [hr, LoopResult.andThen_cont] at h
      obtain ⟨hw1, ha1, Δ1, htr1, hnr1, hcov1⟩ :=
        ipLoop_cont env cc numIps retries eu epw ips info info1 hr
      obtain ⟨hw2, ha2, Δ2, htr2, hnr2, hcov2⟩ := ih _ h
      refine ⟨hw2.trans hw1, ha2.trans ha1, Δ1 ++ Δ2, ?_, ?_, ?_⟩
      · rw [htr2, htr1, List.append_assoc]
      · intro x hx
        rcases List.mem_append.mp hx with hx | hx
        · exact hnr1 x hx
        · exact hnr2 x hx
      · intro ep' hep' ip' hip' hne
        rcases List.mem_cons.mp hep' with hep' | hep'
        · subst hep'
          exact List.mem_append.mpr (Or.inl (hcov1 ip' hip' hne))
        · exact List.mem_append.mpr (Or.inr (hcov2 ep' hep' ip' hip' hne))

/-- Entry-loop invariant, early-return case. -/
theorem entryLoop_ret (env : NetEnv) (cc : Bool) (numIps retries : Nat)
    (ips : List String) (entries : List (String × String)) (info : LoginInfo)
    (c : Bool) (i : LoginInfo) (e : Option String)
    (h : entryLoop env cc numIps retries ips entries info = .ret c i e) :
    e = none ∧
    ∃ Δ t, i.trace = info.trace ++ Δ ++ [t] ∧
      (∀ x ∈ Δ, returning env cc numIps x = false) ∧
      returning env cc numIps t = true ∧
      i.workingCredentials = some (t.1, t.2.1) ∧
      ((attemptLogin env cc t.2.2 t.1 t.2.1).ipInactive = false →
        i.activeIpAddress = t.2.2) := by
  induction entries generalizing info with
  | nil => simp [entryLoop] at h
  | cons ep rest ih =>
    obtain ⟨eu, epw⟩ := ep
    rw [entryLoop] at h
    cases hr : ipLoop env cc numIps retries eu epw ips info with
    | ret c' i' e' =>
      rw [hr, LoopResult.andThen_ret] at h
      rw [h] at hr
      exact ipLoop_ret env cc numIps retries eu epw ips info c i e hr
    | cont info1 =>
      rw [hr, LoopResult.andThen_cont] at h
      obtain ⟨hw1, ha1, Δ1, htr1, hnr1, hcov1⟩ :=
        ipLoop_cont env cc numIps retries eu epw ips info info1 hr
      obtain ⟨he, Δ2, t, htr2, hnr2, hret2, hw2, hact2⟩ := ih _ h
      refine ⟨he, Δ1 ++ Δ2, t, ?_, ?_, hret2, hw2, hact2⟩
      · rw [htr2, htr1]
        simp [List.append_assoc]
      · intro x hx
        rcases List.mem_append.mp hx with hx | hx
        · exact hnr1 x hx
        · exact hnr2 x hx

/-- Credential-loop invariant, fall-through case: when the whole matrix
falls through, every entry of every credential map has been attempted on
every non-empty IP, and no attempt made anywhere was returning. -/
theorem credLoop_cont (env : NetEnv) (cc : Bool) (numIps retries : Nat)
    (ips : List String) (creds : List (List (String × String)))
    (info info' : LoginInfo)
    (h : credLoop env cc numIps retries ips creds info = .cont info') :
    info'.workingCredentials = info.workingCredentials ∧
    info'.activeIpAddress = info.activeIpAddress ∧
    ∃ Δ, info'.trace = info.trace ++ Δ ∧
      (∀ x ∈ Δ, returning env cc numIps x = false) ∧
      (∀ cred ∈ creds, ∀ ep ∈ cred, ∀ ip' ∈ ips, ip' ≠ "" →
        (ep.1, ep.2, ip') ∈ Δ) := by
  induction creds generalizing info with
  | nil =>
    simp only [credLoop, LoopResult.cont.injEq] at h
    subst h
    exact ⟨rfl, rfl, [], by simp, by simp, by simp⟩
  | cons cred rest ih =>
    rw [credLoop] at h
    cases hr : entryLoop env cc numIps retries ips cred info with
    | ret c i e =>
      rw [hr, LoopResult.andThen_ret] at h
      simp at h
    | cont info1 =>
      rw [hr, LoopResult.andThen_cont] at h
      obtain ⟨hw1, ha1, Δ1, htr1, hnr1, hcov1⟩ :=
        entryLoop_cont env cc numIps retries ips cred info info1 hr
      obtain ⟨hw2, ha2, Δ2, htr2, hnr2, hcov2⟩ := ih _ h
      refine ⟨hw2.trans hw1, ha2.trans ha1, Δ1 ++ Δ2, ?_, ?_, ?_⟩
      · rw [htr2, htr1, List.append_assoc]
      · intro x hx
        rcases List.mem_append.mp hx with hx | hx
        · exact hnr1 x hx
        · exact hnr2 x hx
      · intro cred' hcred' ep hep ip' hip' hne
        rcases List.mem_cons.mp hcred' with hcred' | hcred'
        · subst hcred'
          exact List.mem_append.mpr (Or.inl (hcov1 ep hep ip' hip' hne))
        · exact List.mem_append.mpr (Or.inr (hcov2 cred' hcred' ep hep ip' hip' hne))

/-- Credential-loop invariant, early-return case. -/
theorem credLoop_ret (env : NetEnv) (cc : Bool) (numIps retries : Nat)
    (ips : List String) (creds : List (List (String × String))) (info : LoginInfo)
    (c : Bool) (i : LoginInfo) (e : Option String)
    (h : credLoop env cc numIps retries ips creds info = .ret c i e) :
    e = none ∧
    ∃ Δ t, i.trace = info.trace ++ Δ ++ [t] ∧
      (∀ x ∈ Δ, returning env cc numIps x = false) ∧
      returning env cc numIps t = true ∧
      i.workingCredentials = some (t.1, t.2.1) ∧
      ((attemptLogin env cc t.2.2 t.1 t.2.1).ipInactive = false →
        i.activeIpAddress = t.2.2) := by
  induction creds generalizing info with
  | nil => simp [credLoop] at h
  | cons cred rest ih =>
    rw [credLoop] at h
    cases hr : entryLoop env cc numIps retries ips cred info with
    | ret c' i' e' =>
      rw [hr, LoopResult.andThen_ret] at h
      rw [h] at hr
      exact entryLoop_ret env cc numIps retries ips cred info c i e hr
    | cont info1 =>
      rw [hr, LoopResult.andThen_cont] at h
      obtain ⟨hw1, ha1, Δ1, htr1, hnr1, hcov1⟩ :=
        entryLoop_cont env cc numIps retries ips cred info info1 hr
      obtain ⟨he, Δ2, t, htr2, hnr2, hret2, hw2, hact2⟩ := ih _ h
      refine ⟨he, Δ1 ++ Δ2, t, ?_, ?_, hret2, hw2, hact2⟩
      · rw [htr2, htr1]
        simp [List.append_assoc]
      · intro x hx
        rcases List.mem_append.mp hx with hx | hx
        · exact hnr1 x hx
        · exact hnr2 x hx

/-! ## Claim C2 -/

/-- C2, counterexample.  The claim quantifies over every non-empty
credential list and non-empty IP list, but `Login` skips empty-string IPs
(`if ip == "" { continue }`): with the non-empty IP list `[""]` and one
credential that the device would accept, `Login` returns the
all-attempts-failed error after zero attempts — the (credential, IP) pair
is never tried even though its credential check would succeed. -/
theorem login_empty_string_ip_counterexample :
    (Login (fun _ _ _ => .bmc true) ⟨[""], [[("admin", "pass")]], true, 1⟩).err =
      some "All attempts to login failed." ∧
    (Login (fun _ _ _ => .bmc true) ⟨[""], [[("admin", "pass")]], true, 1⟩).info.attempts = 0 ∧
    (Login (fun _ _ _ => .bmc true) ⟨[""], [[("admin", "pass")]], true, 1⟩).info.trace = [] ∧
    (attemptLogin (fun _ _ _ => .bmc true) true "" "admin" "pass").err = none :=
  ⟨rfl, rfl, rfl, rfl⟩

/-- C2, amended.  For every non-empty credential list and non-empty IP
list: if `Login` returns the all-attempts-failed error, then every
(credential-entry, IP) pair whose IP is a *non-empty string* was attempted
at least once, and no attempt in the whole run was a returning one (the
matrix was exhausted without a success); if `Login` returns without error,
the attempt trace ends at the first returning attempt — every earlier
attempt was non-returning — with that attempt's credential recorded as
working and, except in the single-IP inactive last-resort case, its IP
recorded as the active IP. -/
theorem login_matrix_amended (env : NetEnv) (cc : Bool) (retries : Nat)
    (creds : List (List (String × String))) (ips : List String)
    (_hc : creds ≠ []) (_hi : ips ≠ []) :
    ((Login env ⟨ips, creds, cc, retries⟩).err.isSome →
      (∀ x ∈ (Login env ⟨ips, creds, cc, retries⟩).info.trace,
        returning env cc ips.length x = false) ∧
      (∀ cred ∈ creds, ∀ ep ∈ cred, ∀ ip ∈ ips, ip ≠ "" →
        (ep.1, ep.2, ip) ∈ (Login env ⟨ips, creds, cc, retries⟩).info.trace)) ∧
    ((Login env ⟨ips, creds, cc, retries⟩).err = none →
      ∃ Δ t, (Login env ⟨ips, creds, cc, retries⟩).info.trace = Δ ++ [t] ∧
        (∀ x ∈ Δ, returning env cc ips.length x = false) ∧
        returning env cc ips.length t = true ∧
        (Login env ⟨ips, creds, cc, retries⟩).info.workingCredentials =
          some (t.1, t.2.1) ∧
        ((attemptLogin env cc t.2.2 t.1 t.2.1).ipInactive = false →
          (Login env ⟨ips, creds, cc, retries⟩).info.activeIpAddress = t.2.2)) := by
  have hL : Login env ⟨ips, creds, cc, retries⟩ =
      finishLogin (credLoop env cc ips.length
        (if retries = 0 then 1 else retries) ips creds {}) := rfl
  cases hcl : credLoop env cc ips.length
      (if retries = 0 then 1 else retries) ips creds {} with
  | ret c i e =>
    obtain ⟨he, Δ, t, htr, hnr, hret, hw, hact⟩ :=
      credLoop_ret env cc ips.length _ ips creds {} c i e hcl
    rw [hL, hcl, finishLogin_ret]
    subst he
    constructor
    · intro hsome
      simp at hsome
    · intro _
      refine ⟨Δ, t, ?_, hnr, hret, hw, hact⟩
      simpa using htr
  | cont i =>
    obtain ⟨hw, ha, Δ, htr, hnr, hcov⟩ :=
      credLoop_cont env cc ips.length _ ips creds {} i hcl
    rw [hL, hcl, finishLogin_cont]
    constructor
    · intro _
      have htr' : i.trace = Δ := by simpa using htr
      constructor
      · intro x hx
        rw [htr'] at hx
        exact hnr x hx
      · intro cred hcred ep hep ip hip hne
        rw [htr']
        exact hcov cred hcred ep hep ip hip hne
    · intro hnone
      simp at hnone

/-- Witness for `login_matrix_amended`: one credential, one reachable IP
with a wrong password; the failure branch is exercised concretely. -/
theorem login_matrix_amended_witness :
    (((Login (fun _ _ _ => .bmc false) ⟨["10.0.0.1"], [[("u", "p")]], true, 1⟩).err.isSome →
      (∀ x ∈ (Login (fun _ _ _ => .bmc false) ⟨["10.0.0.1"], [[("u", "p")]], true, 1⟩).info.trace,
        returning (fun _ _ _ => .bmc false) true (["10.0.0.1"] : List String).length x = false) ∧
      (∀ cred ∈ [[(("u" : String), ("p" : String))]], ∀ ep ∈ cred,
        ∀ ip ∈ (["10.0.0.1"] : List String), ip ≠ "" →
        (ep.1, ep.2, ip) ∈
          (Login (fun _ _ _ => .bmc false) ⟨["10.0.0.1"], [[("u", "p")]], true, 1⟩).info.trace)) ∧
    ((Login (fun _ _ _ => .bmc false) ⟨["10.0.0.1"], [[("u", "p")]], true, 1⟩).err = none →
      ∃ Δ t, (Login (fun _ _ _ => .bmc false) ⟨["10.0.0.1"], [[("u", "p")]], true, 1⟩).info.trace = Δ ++ [t] ∧
        (∀ x ∈ Δ, returning (fun _ _ _ => .bmc false) true (["10.0.0.1"] : List String).length x = false) ∧
        returning (fun _ _ _ => .bmc false) true (["10.0.0.1"] : List String).length t = true ∧
        (Login (fun _ _ _ => .bmc false) ⟨["10.0.0.1"], [[("u", "p")]], true, 1⟩).info.workingCredentials =
          some (t.1, t.2.1) ∧
        ((attemptLogin (fun _ _ _ => .bmc false) true t.2.2 t.1 t.2.1).ipInactive = false →
          (Login (fun _ _ _ => .bmc false) ⟨["10.0.0.1"], [[("u", "p")]], true, 1⟩).info.activeIpAddress = t.2.2))) :=
  login_matrix_amended (fun _ _ _ => .bmc false) true 1 [[("u", "p")]]
    ["10.0.0.1"] (by simp) (by simp)

/-! ## Claim C10 -/

/-- C10.  In the single-IP inactive last-resort acceptance, `Login`
returns with `WorkingCredentials` set but `ActiveIpAddress` still the
empty string (the last-resort branch never assigns it), and the caller
`configureAsset` then executes `asset.IPAddress = loginInfo.ActiveIpAddress`,
overwriting the asset's resolved IP field with the empty string despite
the successful login. -/
theorem login_last_resort_overwrites_ip (a : Butler.Asset) (env : NetEnv)
    (u p ip : String) (r : Nat)
    (h : ip ≠ "") (e : env ip u p = .chassis true false)
    (ha : a.ipAddresses = [ip]) :
    (Login env ⟨a.ipAddresses, [[(u, p)]], true, r⟩).err = none ∧
    (Login env ⟨a.ipAddresses, [[(u, p)]], true, r⟩).info.workingCredentials =
      some (u, p) ∧
    (Login env ⟨a.ipAddresses, [[(u, p)]], true, r⟩).info.activeIpAddress = "" ∧
    (Butler.configureAssetAfterLogin a
      (Login env ⟨a.ipAddresses, [[(u, p)]], true, r⟩)).ipAddress = "" := by
  rw [ha]
  simp [Login, credLoop, entryLoop, ipLoop, retryLoop, attemptLogin, e, h,
    Butler.configureAssetAfterLogin]

/-- Witness for `login_two_ip_second_active`, on a concrete two-IP chassis
environment. -/
theorem login_two_ip_second_active_witness :
    (Login (fun ip _ _ => if ip = "ip1" then ProbeOutcome.chassis true false
        else ProbeOutcome.chassis true true)
      ⟨["ip1", "ip2"], [[("u", "p")]], true, 1⟩).err = none ∧
    (Login (fun ip _ _ => if ip = "ip1" then ProbeOutcome.chassis true false
        else ProbeOutcome.chassis true true)
      ⟨["ip1", "ip2"], [[("u", "p")]], true, 1⟩).info.activeIpAddress = "ip2" ∧
    (Login (fun ip _ _ => if ip = "ip1" then ProbeOutcome.chassis true false
        else ProbeOutcome.chassis true true)
      ⟨["ip1", "ip2"], [[("u", "p")]], true, 1⟩).info.failedCredentials = [] ∧
    (Login (fun ip _ _ => if ip = "ip1" then ProbeOutcome.chassis true false
        else ProbeOutcome.chassis true true)
      ⟨["ip1", "ip2"], [[("u", "p")]], true, 1⟩).connection = true :=
  login_two_ip_second_active
    (fun ip _ _ => if ip = "ip1" then ProbeOutcome.chassis true false
      else ProbeOutcome.chassis true true)
    "u" "p" "ip1" "ip2" 1 (by decide) (by decide) (by simp) (by simp)

/-- Witness for `login_single_ip_inactive_accepted`, on a concrete
single-IP inactive chassis environment. -/
theorem login_single_ip_inactive_accepted_witness :
    (Login (fun _ _ _ => ProbeOutcome.chassis true false)
      ⟨["10.0.0.9"], [[("u", "p")]], true, 1⟩).err = none ∧
    (Login (fun _ _ _ => ProbeOutcome.chassis true false)
      ⟨["10.0.0.9"], [[("u", "p")]], true, 1⟩).connection = true ∧
    (Login (fun _ _ _ => ProbeOutcome.chassis true false)
      ⟨["10.0.0.9"], [[("u", "p")]], true, 1⟩).info.workingCredentials =
        some ("u", "p") :=
  login_single_ip_inactive_accepted (fun _ _ _ => ProbeOutcome.chassis true false)
    "u" "p" "10.0.0.9" 1 (by decide) rfl

/-- Witness for `login_last_resort_overwrites_ip`: an asset whose resolved
IP starts as `"10.0.0.1"` ends with the empty string after the last-resort
login. -/
theorem login_last_resort_overwrites_ip_witness :
    (Login (fun _ _ _ => ProbeOutcome.chassis true false)
      ⟨(Butler.Asset.mk ["10.0.0.9"] "10.0.0.1" "" "" "" "" "" false false false []).ipAddresses,
        [[("u", "p")]], true, 1⟩).err = none ∧
    (Login (fun _ _ _ => ProbeOutcome.chassis true false)
      ⟨(Butler.Asset.mk ["10.0.0.9"] "10.0.0.1" "" "" "" "" "" false false false []).ipAddresses,
        [[("u", "p")]], true, 1⟩).info.workingCredentials = some ("u", "p") ∧
    (Login (fun _ _ _ => ProbeOutcome.chassis true false)
      ⟨(Butler.Asset.mk ["10.0.0.9"] "10.0.0.1" "" "" "" "" "" false false false []).ipAddresses,
        [[("u", "p")]], true, 1⟩).info.activeIpAddress = "" ∧
    (Butler.configureAssetAfterLogin
      (Butler.Asset.mk ["10.0.0.9"] "10.0.0.1" "" "" "" "" "" false false false [])
      (Login (fun _ _ _ => ProbeOutcome.chassis true false)
        ⟨(Butler.Asset.mk ["10.0.0.9"] "10.0.0.1" "" "" "" "" "" false false false []).ipAddresses,
          [[("u", "p")]], true, 1⟩)).ipAddress = "" :=
  login_last_resort_overwrites_ip
    (Butler.Asset.mk ["10.0.0.9"] "10.0.0.1" "" "" "" "" "" false false false [])
    (fun _ _ _ => ProbeOutcome.chassis true false)
    "u" "p" "10.0.0.9" 1 (by decide) rfl rfl

end Bmclogin

namespace Discover

/-- A probe whose call errors is logged and skipped: the loop continues on
the remaining probes, with the failed probe recorded at the head of the
trace. -/
theorem probeLoop_cons_err (env : String → ProbeRes) (cb : String → Option String)
    (id e : String) (rest : List String) (h : (env id).err = some e) :
    probeLoop env cb (id :: rest) =
      (id :: (probeLoop env cb rest).1, (probeLoop env cb rest).2) := by
  cases hlp : probeLoop env cb rest with
  | mk tr res => simp only [probeLoop, h, hlp]

/-! ## Claim C3 -/

/-- C3, counterexample.  `swapProbe` *swaps* the hint with slot 0 rather
than rotating it to the front: for catalog `[A, B, C]` and hint `C` the
effective try order is `[C, B, A]` — the relative order of the remaining
probes is *not* preserved — and an all-failing environment probes exactly
that order, not the claimed `[C, A, B]`. -/
theorem swap_probe_order_counterexample :
    swapProbe ["A", "B", "C"] "C" = ["C", "B", "A"] ∧
    swapProbe ["A", "B", "C"] "C" ≠ ["C", "A", "B"] ∧
    (probeLoop (fun _ => ⟨false, some "probe failed"⟩) (fun _ => none)
      (scanOrder ["A", "B", "C"] "C")).1 = ["C", "B", "A"] ∧
    (probeLoop (fun _ => ⟨false, some "probe failed"⟩) (fun _ => none)
      (scanOrder ["A", "B", "C"] "C")).2 = ScanResult.vendorUnknown := by
  refine ⟨by decide, by decide, by decide, by decide⟩

/-- C3, amended.  For a catalog `[a, b, c]` and non-empty hint `c` (not
equal to `a` or `b`), the effective try order is `[c, b, a]`: the hint is
swapped with the first probe, so the former first probe takes the hint's
old slot.  If the hinted probe fails, probing still falls through to the
remaining probes in that swapped order. -/
theorem scan_hint_swap_amended (a b c : String)
    (hc : c ≠ "") (ha : a ≠ c) (hb : b ≠ c)
    (env : String → ProbeRes) (cb : String → Option String) (e : String)
    (henv : (env c).err = some e) :
    scanOrder [a, b, c] c = [c, b, a] ∧
    (probeLoop env cb (scanOrder [a, b, c] c)).1 =
      c :: (probeLoop env cb [b, a]).1 ∧
    (probeLoop env cb (scanOrder [a, b, c] c)).2 =
      (probeLoop env cb [b, a]).2 := by
  have horder : scanOrder [a, b, c] c = [c, b, a] := by
    rw [scanOrder, if_pos hc]
    rw [swapProbe]
    have hidx : List.findIdx? (· = c) [a, b, c] = some 2 := by
      simp [List.findIdx?_cons, ha, hb]
    rw [hidx]
    simp [List.set, List.getD]
  refine ⟨horder, ?_, ?_⟩ <;>
    · rw [horder, probeLoop_cons_err env cb c e [b, a] henv]

/-- Witness for `scan_hint_swap_amended`, on the concrete catalog
`["A", "B", "C"]` with hint `"C"` failing and the rest failing too. -/
theorem scan_hint_swap_amended_witness :
    scanOrder ["A", "B", "C"] "C" = ["C", "B", "A"] ∧
    (probeLoop (fun _ => ⟨false, some "down"⟩) (fun _ => none)
      (scanOrder ["A", "B", "C"] "C")).1 =
      "C" :: (probeLoop (fun _ => ⟨false, some "down"⟩) (fun _ => none)
        ["B", "A"]).1 ∧
    (probeLoop (fun _ => ⟨false, some "down"⟩) (fun _ => none)
      (scanOrder ["A", "B", "C"] "C")).2 =
      (probeLoop (fun _ => ⟨false, some "down"⟩) (fun _ => none) ["B", "A"]).2 :=
  scan_hint_swap_amended "A" "B" "C" (by decide) (by decide) (by decide)
    (fun _ => ⟨false, some "down"⟩) (fun _ => none) "down" rfl

end Discover

namespace Butler

/-! ## Lemmas about the message handler -/

/-- The action switch never exits through the location-rejection return. -/
theorem msgHandlerAction_exit_ne_location (aenv : ActionEnv) (msg : Msg)
    (counters : List String) :
    (msgHandlerAction aenv msg counters).exit ≠ HandlerExit.locationUnmanaged := by
  rw [msgHandlerAction]
  split_ifs with h1 h2
  · rcases h3 : aenv.executeErr with _ | v <;> simp [h3]
  · rcases h3 : aenv.configureErr with _ | v <;> simp [h3]
  · simp

/-- With the interrupt flag unset and a usable IP, `msgHandler` either
rejects at the location filter (allow-list miss with the override unset)
or proceeds to the action switch. -/
theorem msgHandler_location_case (b : ButlerState) (aenv : ActionEnv) (msg : Msg)
    (hint : b.interrupt = false)
    (hip : ¬(msg.asset.ipAddresses.length = 0 ∨
      (msg.asset.ipAddresses.length = 1 ∧
        msg.asset.ipAddresses.headD "" = "0.0.0.0")))
    (hloc : msg.asset.location ≠ "") :
    msgHandler b aenv msg =
      if myLocation b.locations msg.asset.location = false ∧
          b.ignoreLocation = false
      then ⟨["asset_recvd", "asset_recvd_location_unmanaged"],
        .locationUnmanaged⟩
      else msgHandlerAction aenv msg ["asset_recvd"] := by
  rw [msgHandler, if_neg (by simp [hint]), if_neg hip]
  by_cases hcond : myLocation b.locations msg.asset.location = false ∧
      b.ignoreLocation = false
  · rw [if_pos ⟨hloc, by simp [hcond.1], by simp [hcond.2]⟩, if_pos hcond]
    rfl
  · rw [if_neg ?_, if_neg hcond]
    intro hfull
    obtain ⟨h1', h2', h3'⟩ := hfull
    exact hcond ⟨by simpa using h2', by simpa using h3'⟩

/-! ## Claim C8 -/

/-- C8, counterexample.  The claim quantifies over every work message with
an unusable IP list, but `msgHandler` first checks the process-wide
interrupt flag and returns before any counter is touched: with the flag
set, a no-IP asset increments the no-IP counter zero times, not exactly
once. -/
theorem msgHandler_noip_interrupt_counterexample :
    msgHandler ⟨true, [], false⟩ ⟨none, none⟩
      ⟨{ ipAddresses := [] }, [], [], ""⟩ = ⟨[], .interrupted⟩ ∧
    (msgHandler ⟨true, [], false⟩ ⟨none, none⟩
      ⟨{ ipAddresses := [] }, [], [], ""⟩).counters.count "asset_recvd_noip" = 0 :=
  ⟨rfl, rfl⟩

/-- C8, amended.  Provided the process-wide interrupt flag is not set: for
every work message whose asset has an empty IP list or the one-element
list `["0.0.0.0"]`, the handler exits through the no-IP return — invoking
neither login nor any action — and increments the no-IP counter exactly
once. -/
theorem msgHandler_noip_amended (b : ButlerState) (aenv : ActionEnv) (msg : Msg)
    (hint : b.interrupt = false)
    (hip : msg.asset.ipAddresses = [] ∨ msg.asset.ipAddresses = ["0.0.0.0"]) :
    msgHandler b aenv msg = ⟨["asset_recvd", "asset_recvd_noip"], .noIP⟩ ∧
    (msgHandler b aenv msg).counters.count "asset_recvd_noip" = 1 := by
  have h1 : msgHandler b aenv msg =
      ⟨["asset_recvd", "asset_recvd_noip"], .noIP⟩ := by
    rcases hip with h | h <;> simp [msgHandler, hint, h]
  exact ⟨h1, by rw [h1]; rfl⟩

/-- Witness for `msgHandler_noip_amended`, on a concrete no-IP message. -/
theorem msgHandler_noip_amended_witness :
    msgHandler ⟨false, ["dc1"], false⟩ ⟨none, none⟩
      ⟨{ ipAddresses := [] }, [], [], ""⟩ =
      ⟨["asset_recvd", "asset_recvd_noip"], .noIP⟩ ∧
    (msgHandler ⟨false, ["dc1"], false⟩ ⟨none, none⟩
      ⟨{ ipAddresses := [] }, [], [], ""⟩).counters.count "asset_recvd_noip" = 1 :=
  msgHandler_noip_amended ⟨false, ["dc1"], false⟩ ⟨none, none⟩
    ⟨{ ipAddresses := [] }, [], [], ""⟩ rfl (Or.inl rfl)

/-! ## Claim C9 -/

/-- C9, counterexample.  The claim requires a *non-empty* allow-list for
rejection, but `myLocation` returns `false` on an empty allow-list and the
handler rejects on `!myLocation && !IgnoreLocation` alone: with an empty
allow-list, a located asset is rejected rather than handled. -/
theorem msgHandler_empty_allowlist_counterexample :
    msgHandler ⟨false, [], false⟩ ⟨none, none⟩
      ⟨{ ipAddresses := ["10.0.0.1"], location := "dc1", configure := true },
        [], [], ""⟩ =
      ⟨["asset_recvd", "asset_recvd_location_unmanaged"], .locationUnmanaged⟩ :=
  rfl

/-- C9, amended.  Provided the interrupt flag is unset and the asset has a
usable IP: for every work message whose asset has a non-empty location,
the handler rejects at the location filter exactly when the allow-list
does not contain that location (in particular always when the allow-list
is empty) and the ignore-location override is not set; otherwise handling
continues to the action switch. -/
theorem msgHandler_location_amended (b : ButlerState) (aenv : ActionEnv) (msg : Msg)
    (hint : b.interrupt = false)
    (hip : ¬(msg.asset.ipAddresses.length = 0 ∨
      (msg.asset.ipAddresses.length = 1 ∧
        msg.asset.ipAddresses.headD "" = "0.0.0.0")))
    (hloc : msg.asset.location ≠ "") :
    ((msgHandler b aenv msg).exit = .locationUnmanaged ↔
      (myLocation b.locations msg.asset.location = false ∧
        b.ignoreLocation = false)) ∧
    (¬(myLocation b.locations msg.asset.location = false ∧
        b.ignoreLocation = false) →
      msgHandler b aenv msg = msgHandlerAction aenv msg ["asset_recvd"]) := by
  rw [msgHandler_location_case b aenv msg hint hip hloc]
  by_cases hcond : myLocation b.locations msg.asset.location = false ∧
      b.ignoreLocation = false
  · rw [if_pos hcond]
    exact ⟨by simpa using hcond, fun hn => absurd hcond hn⟩
  · rw [if_neg hcond]
    refine ⟨?_, fun _ => rfl⟩
    simp only [hcond, iff_false]
    exact msgHandlerAction_exit_ne_location aenv msg ["asset_recvd"]

/-- Witness for `msgHandler_location_amended`: allow-list `["dc1"]`, asset
located in `"dc2"`, override unset — the rejection side of the
biconditional holds concretely. -/
theorem msgHandler_location_amended_witness :
    ((msgHandler ⟨false, ["dc1"], false⟩ ⟨none, none⟩
      ⟨{ ipAddresses := ["10.0.0.1"], location := "dc2", configure := true },
        [], [], ""⟩).exit = .locationUnmanaged ↔
      (myLocation ["dc1"] "dc2" = false ∧ false = false)) ∧
    (¬(myLocation ["dc1"] "dc2" = false ∧ false = false) →
      msgHandler ⟨false, ["dc1"], false⟩ ⟨none, none⟩
        ⟨{ ipAddresses := ["10.0.0.1"], location := "dc2", configure := true },
          [], [], ""⟩ =
        msgHandlerAction ⟨none, none⟩
          ⟨{ ipAddresses := ["10.0.0.1"], location := "dc2", configure := true },
            [], [], ""⟩ ["asset_recvd"]) :=
  msgHandler_location_amended ⟨false, ["dc1"], false⟩ ⟨none, none⟩
    ⟨{ ipAddresses := ["10.0.0.1"], location := "dc2", configure := true },
      [], [], ""⟩ rfl (by decide) (by decide)

end Butler
